import Mathlib

/-!
Shallow embedding of the collision-report pipeline from
`src/app.py` and `src/Main_v04.py`.

String-processing helpers mirror the Python operations used by the code
(`str.lower`, `str.strip`, `str.replace`, `str.split`, `int`,
`datetime.strptime` with the `%H:%M:%S` / `%I:%M:%S` formats,
`datetime.strftime('%H:%M')`) on the ASCII data the pipeline handles,
implemented by structural recursion on `List Char` so that every
definition evaluates inside the kernel.
-/

set_option maxRecDepth 4000

namespace CollisionReport

/-- ASCII lower-casing of one character, as `str.lower` acts on the
ASCII strings this pipeline processes. -/
def pyLowerChar (c : Char) : Char :=
  if 'A' ≤ c ∧ c ≤ 'Z' then Char.ofNat (c.toNat + 32) else c

/-- The whitespace characters removed by Python `str.strip()`. -/
def pySpace (c : Char) : Bool :=
  c = ' ' ∨ c = '\t' ∨ c = '\n' ∨ c = '\r' ∨ c = '\x0b' ∨ c = '\x0c'

/-- Python `str.strip()`: drop leading and trailing whitespace. -/
def stripChars (cs : List Char) : List Char :=
  ((cs.dropWhile pySpace).reverse.dropWhile pySpace).reverse

/-- Python `str.replace(pq, "")` for a two-character pattern `p,q`:
delete every (non-overlapping, left-to-right) occurrence. -/
def replace2 (p q : Char) : List Char → List Char
  | [] => []
  | [c] => [c]
  | c :: d :: rest =>
    if c = p ∧ d = q then replace2 p q rest
    else c :: replace2 p q (d :: rest)

/-- Python `str.split(sep)` for a one-character separator: always returns
a non-empty list of (possibly empty) fields. -/
def splitOnChar (sep : Char) : List Char → List (List Char)
  | [] => [[]]
  | c :: rest =>
    if c = sep then [] :: splitOnChar sep rest
    else
      match splitOnChar sep rest with
      | [] => [[c]]
      | h :: t => (c :: h) :: t

/-- ASCII decimal digit test (the digits appearing in the time data). -/
def isDig (c : Char) : Bool := decide (48 ≤ c.toNat ∧ c.toNat ≤ 57)

/-- Value of a list of decimal digits, most significant first. -/
def digitsVal (cs : List Char) : Nat :=
  cs.foldl (fun a c => a * 10 + (c.toNat - 48)) 0

/-- One `strptime` numeric field of at most two digits, bounded by `hi`
when two digits are given: this is the language of the CPython
`_strptime` regexes for `%H` (`hi = 23`), `%M` (`hi = 59`) and
`%S` (`hi = 61`), each of which accepts any single digit and exactly the
two-digit values up to the bound. -/
def parseField (hi : Nat) (cs : List Char) : Option Nat :=
  if cs.length = 1 ∧ cs.all isDig then some (digitsVal cs)
  else if cs.length = 2 ∧ cs.all isDig ∧ digitsVal cs ≤ hi then some (digitsVal cs)
  else none

/-- The `%I` field of `strptime`: hour `1..12`, one or two digits,
excluding `0` and `00` (regex `1[0-2]|0[1-9]|[1-9]`). -/
def parseFieldI (cs : List Char) : Option Nat :=
  if cs.length = 1 ∧ cs.all isDig ∧ 1 ≤ digitsVal cs then some (digitsVal cs)
  else if cs.length = 2 ∧ cs.all isDig ∧ 1 ≤ digitsVal cs ∧ digitsVal cs ≤ 12 then
    some (digitsVal cs)
  else none

/-- `datetime.strptime(s, '%H:%M:%S')`: exactly three `:`-separated
fields, hour `0..23`, minute `0..59`, second `0..61`. -/
def parseHMS (cs : List Char) : Option (Nat × Nat × Nat) :=
  match splitOnChar ':' cs with
  | [hs, ms, ss] =>
    (parseField 23 hs).bind fun h =>
      (parseField 59 ms).bind fun m =>
        (parseField 61 ss).map fun s => (h, m, s)
  | _ => none

/-- `datetime.strptime(s, '%I:%M:%S')`: as `parseHMS` but with the
12-hour `%I` field; with no `%p` directive CPython treats the value as
AM, so hour 12 becomes 0. -/
def parseIMS (cs : List Char) : Option (Nat × Nat × Nat) :=
  match splitOnChar ':' cs with
  | [hs, ms, ss] =>
    (parseFieldI hs).bind fun h =>
      (parseField 59 ms).bind fun m =>
        (parseField 61 ss).map fun s => ((if h = 12 then 0 else h), m, s)
  | _ => none

/-- Two-digit zero-padded decimal rendering, as in `strftime`. -/
def fmt2 (n : Nat) : List Char :=
  if n < 10 then ['0', Char.ofNat (48 + n)]
  else [Char.ofNat (48 + n / 10), Char.ofNat (48 + n % 10)]

/-- `dt.strftime('%H:%M')`. -/
def fmtHM (h m : Nat) : String := String.mk (fmt2 h ++ ':' :: fmt2 m)

/-- `str(t).lower().strip().replace('pm', '').replace('am', '')` from
src/app.py line 151. -/
def cleanedChars (t : String) : List Char :=
  replace2 'a' 'm' (replace2 'p' 'm' (stripChars (t.data.map pyLowerChar)))

/-- `clean_time_string` from src/app.py (lines 149-159), applied to a
present (non-null) value: lower-case, strip, delete every `"pm"` and
`"am"`, then try `strptime '%H:%M:%S'`, then `strptime '%I:%M:%S'`
(each on the re-stripped text), and render the parsed time as
`'%H:%M'`; `none` when both parses fail. -/
def clean_time_string (t : String) : Option String :=
  match parseHMS (stripChars (cleanedChars t)) with
  | some (h, m, _) => some (fmtHM h m)
  | none =>
    match parseIMS (stripChars (cleanedChars t)) with
    | some (h, m, _) => some (fmtHM h m)
    | none => none

/-- The null-check wrapper: `clean_time_string` returns `None` on null
input (`pd.isnull`), otherwise processes the string. -/
def cleanTimeOpt (t : Option String) : Option String :=
  t.bind clean_time_string

/-- Python `int(s)` on the strings this pipeline feeds it: optional
sign, then a non-empty run of digits; `none` models `ValueError`. -/
def pyInt (cs : List Char) : Option Int :=
  let s := stripChars cs
  match s with
  | '-' :: rest =>
    if rest ≠ [] ∧ rest.all isDig then some (-(digitsVal rest : Int)) else none
  | '+' :: rest =>
    if rest ≠ [] ∧ rest.all isDig then some ((digitsVal rest : Int)) else none
  | _ =>
    if s ≠ [] ∧ s.all isDig then some ((digitsVal s : Int)) else none

/-- `classify_period` from src/app.py (lines 163-173): `None` maps to
`"Unknown"`, otherwise the hour is `int(t.split(':')[0])` and the
bucket is chosen by the half-open hour ranges; any `int` failure maps
to `"Unknown"` via the `except` clause. -/
def classify_period (t : Option String) : String :=
  match t with
  | none => "Unknown"
  | some s =>
    match splitOnChar ':' s.data with
    | [] => "Unknown"
    | p :: _ =>
      match pyInt p with
      | none => "Unknown"
      | some hour =>
        if 6 ≤ hour ∧ hour < 12 then "Morning"
        else if 12 ≤ hour ∧ hour < 17 then "Afternoon"
        else if 17 ≤ hour ∧ hour < 21 then "Evening"
        else "Night"

/-- The derived `Time Period` column: `classify_period` applied to the
cleaned time of a raw `Accident Time` cell. -/
def timePeriodOf (t : Option String) : String :=
  classify_period (cleanTimeOpt t)

/-! ### Frequency tables (the Aggregator)

A single-field table is a pandas `Series` (`value_counts`); a
cross-tabulation (`groupby([g, c]).size().unstack(fill_value=0)`) is a
`DataFrame`. A `DataFrame` cell is `Option Nat`: `none` models `NaN`
(introduced by `reindex` for absent index labels). -/

/-- `df[col].value_counts()`: drop missing values, count each distinct
value. (pandas additionally sorts the result by descending count for
display; that ordering carries no meaning here — the spec itself calls
category order non-semantic — so the observation order of `dedup` is
kept.) -/
def value_counts (vals : List (Option String)) : List (String × Nat) :=
  let v := vals.filterMap id
  v.dedup.map fun x => (x, v.count x)

/-- `groupby` key handling: rows in which either key is missing are
dropped. -/
def validPairs (pairs : List (Option String × Option String)) : List (String × String) :=
  pairs.filterMap fun p =>
    match p.1, p.2 with
    | some a, some b => some (a, b)
    | _, _ => none

/-- The group values observed among the valid rows (the index of the
unstacked frame). -/
def obsGroups (pairs : List (Option String × Option String)) : List String :=
  ((validPairs pairs).map Prod.fst).dedup

/-- The classification values observed among the valid rows (the
columns of the unstacked frame). -/
def obsCols (pairs : List (Option String × Option String)) : List String :=
  ((validPairs pairs).map Prod.snd).dedup

/-- `df.groupby([g, c]).size().unstack(fill_value=0)`: a dense grid over
the observed group values × observed classification values, absent
combinations filled with 0. -/
def crosstabRows (pairs : List (Option String × Option String)) :
    List (String × List Nat) :=
  (obsGroups pairs).map fun g =>
    (g, (obsCols pairs).map fun c => (validPairs pairs).count (g, c))

/-- Total of all cells of the unstacked grid. -/
def crosstabSum (pairs : List (Option String × Option String)) : Nat :=
  ((crosstabRows pairs).map fun r => r.2.sum).sum

/-- One cell of `…unstack(fill_value=0).reindex(order)`: a group label
absent from the data yields a `NaN` row (`reindex` fills new labels
with `NaN`, not 0); an observed label keeps its 0-filled counts. -/
def crosstabCell (pairs : List (Option String × Option String)) (g c : String) :
    Option Nat :=
  if g ∈ obsGroups pairs then some ((validPairs pairs).count (g, c)) else none

/-- `…unstack(fill_value=0).reindex(order)`: rows indexed exactly by
`order`, columns by the observed classification values. -/
def reindexedTable (pairs : List (Option String × Option String))
    (order : List String) : List (String × List (Option Nat)) :=
  order.map fun g => (g, (obsCols pairs).map fun c => crosstabCell pairs g c)

/-- Sum of the present (non-`NaN`) cells of a reindexed table, as
pandas `sum` skips `NaN`. -/
def tableOptSum (t : List (String × List (Option Nat))) : Nat :=
  (t.map fun r => (r.2.filterMap id).sum).sum

def weekday_order : List String :=
  ["Monday", "Tuesday", "Wednesday", "Thursday", "Friday", "Saturday", "Sunday"]

def month_order : List String :=
  ["January", "February", "March", "April", "May", "June", "July", "August",
   "September", "October", "November", "December"]

def period_order : List String := ["Morning", "Afternoon", "Evening", "Night"]

/-! ### The "Accident Type by Time of Day" pipeline (src/app.py 161-179) -/

/-- Rows surviving `df[df['Time Period'].isin(period_order)]`, carried
as (`Time Period`, `Classification Of Accident`) key pairs; the derived
`Time Period` key is never missing. -/
def timeFiltered (rows : List (Option String × Option String)) :
    List (Option String × Option String) :=
  (rows.filter fun r => period_order.contains (timePeriodOf r.1)).map
    fun r => (some (timePeriodOf r.1), r.2)

/-- `time_grouped`: the cross-tabulation of the filtered rows,
reindexed to the four period labels. -/
def time_grouped (rows : List (Option String × Option String)) :
    List (String × List (Option Nat)) :=
  reindexedTable (timeFiltered rows) period_order

/-- Number of rows whose `Accident Time` parses
(`clean_time_string` succeeds). -/
def parseableCount (rows : List (Option String × Option String)) : Nat :=
  (rows.filter fun r => (cleanTimeOpt r.1).isSome).length

/-! ### Chart data and rendering (the Section Assembler input) -/

/-- The data handed to `add_section`: a `Series` (single-field counts)
or a `DataFrame` (cross-tabulation: column labels plus rows of
possibly-`NaN` cells). -/
inductive ChartData where
  | series : List (String × Nat) → ChartData
  | frame : List String → List (String × List (Option Nat)) → ChartData
deriving DecidableEq

/-- `len(chart_data)`: the number of rows. -/
def chartLen : ChartData → Nat
  | .series rows => rows.length
  | .frame _ rows => rows.length

/-- `isinstance(chart_data, pd.DataFrame)`. -/
def isCrossTab : ChartData → Bool
  | .series _ => false
  | .frame _ _ => true

/-- `chart_data.index`. -/
def chartLabels : ChartData → List String
  | .series rows => rows.map Prod.fst
  | .frame _ rows => rows.map Prod.fst

/-- `chart_data.head(n)`: the first `n` rows. -/
def chartHead (n : Nat) : ChartData → ChartData
  | .series rows => .series (rows.take n)
  | .frame cols rows => .frame cols (rows.take n)

/-- Decimal digits of `n` via bounded fuel, most significant first. -/
def decChars : Nat → Nat → List Char
  | 0, _ => []
  | fuel + 1, n =>
    if n < 10 then [Char.ofNat (48 + n)]
    else decChars fuel (n / 10) ++ [Char.ofNat (48 + n % 10)]

/-- Decimal rendering of a natural number. -/
def natStr (n : Nat) : String := String.mk (decChars (n + 1) n)

/-- A `NaN`-aware cell rendering. -/
def cellStr : Option Nat → String
  | some n => natStr n
  | none => "NaN"

/-- `chart_data.to_string()`: one line per row (header line first for a
`DataFrame`), label and counts separated by spaces. -/
def chartToString : ChartData → String
  | .series rows =>
    String.intercalate "\n" (rows.map fun r => r.1 ++ " " ++ natStr r.2)
  | .frame cols rows =>
    String.intercalate "\n"
      ((String.intercalate " " cols) ::
        rows.map fun r => r.1 ++ " " ++ String.intercalate " " (r.2.map cellStr))

/-- The rendered chart requested from matplotlib. -/
inductive Chart where
  | pie (labels : List String)
  | bar (stacked : Bool) (rotated : Bool)
  | geo (markers : List (Rat × Rat × String))
deriving DecidableEq

/-- The chart branch of `add_section` (src/app.py 64-69): pie when the
requested kind is `"pie"` and there are at most 6 rows; otherwise a bar
chart, stacked exactly when the data is a `DataFrame`, with x-tick
labels rotated 45°. -/
def renderChart (chartType : String) (d : ChartData) : Chart :=
  if chartType = "pie" ∧ chartLen d ≤ 6 then Chart.pie (chartLabels d)
  else Chart.bar (isCrossTab d) true

/-! ### Narrative Service prompts and error substitution -/

/-- The prompt built inside `add_section` (src/app.py 76-81): role
framing, the section title, and the first 10 rows of the table. -/
def promptApp (title : String) (d : ChartData) : String :=
  "You are a road safety analyst. Write a short professional summary " ++
  "of this accident chart titled '" ++ title ++ "'.\n\n" ++
  "Data: " ++ chartToString (chartHead 10 d) ++ "\n\n" ++
  "Highlight the most common types and any interesting patterns."

/-- The prompt built in src/Main_v04.py 63-70: role framing, the column
title, and `value_counts.to_string()` — the whole table, untruncated. -/
def promptMain (title : String) (vc : List (String × Nat)) : String :=
  "You are a road safety analyst. Write a short professional summary of the chart titled '" ++
  title ++ "'.\n\n" ++
  "Data: " ++ chartToString (ChartData.series vc) ++ "\n\n" ++
  "Highlight notable patterns, especially frequencies, dominant values, or changes over time. " ++
  "Use a tone similar to a traffic safety expert / consultant writing for a municipality."

/-- The Narrative Service (OpenAI chat completion) as an oracle: the
reply text, or the exception detail rendered as a string. -/
abbrev Narrative := String → Except String String

/-- The `try/except` around the completion call in src/app.py 83-91:
a successful reply is stripped and used; any exception `e` is replaced
by the placeholder `f"[GPT Error: {e}]"`. (The reply's own
`strip()` is left to the oracle, which supplies the text verbatim.) -/
def gptSummary (resp : Except String String) : String :=
  match resp with
  | .ok s => s
  | .error e => "[GPT Error: " ++ e ++ "]"

/-! ### The Section Assembler (src/app.py 50-102, 183-259) -/

/-- One emitted report section: heading ordinal and title, the rendered
chart, the caption line, and the narrative paragraph (empty for the map
section, which has no narrative). -/
structure Sec where
  ordinal : Nat
  title : String
  chart : Chart
  caption : String
  paragraph : String
deriving DecidableEq

/-- The mutable document state: the `section_count` counter and the
accumulated sections, plus the `st.warning` messages surfaced to the
operator. -/
structure DocState where
  count : Nat
  sections : List Sec
  warnings : List String
deriving DecidableEq

/-- The document right after the front matter: `section_count = 1`,
no sections, no warnings. -/
def initState : DocState := ⟨1, [], []⟩

/-- `add_section` (src/app.py 57-102): skip unchanged when the table
has fewer than 2 rows; otherwise render the chart, query the Narrative
Service with the 10-row prompt, append the section at ordinal
`section_count`, and increment the counter. -/
def add_section (oracle : Narrative) (st : DocState) (title : String)
    (d : ChartData) (chartType : String) : DocState :=
  if chartLen d < 2 then st
  else
    { count := st.count + 1
      sections := st.sections ++
        [⟨st.count, title, renderChart chartType d,
          "Figure " ++ natStr st.count ++ ": " ++ title,
          gptSummary (oracle (promptApp title d))⟩]
      warnings := st.warnings }

/-! ### The Spatial Map Builder input (src/app.py 183-255) -/

/-- One raw row's `Latitude`, `Longitude` and
`Classification Of Accident` cells, each possibly missing. -/
structure GeoRow where
  lat : Option Rat
  lon : Option Rat
  cls : Option String
deriving DecidableEq

/-- The per-row test of `map_df`: `dropna()` keeps a row only when all
three selected cells are present, and the `between` filters then
require the inclusive coordinate bounds. -/
def geoKeep (r : GeoRow) : Option (Rat × Rat × String) :=
  match r.lat, r.lon, r.cls with
  | some la, some lo, some c =>
    if -90 ≤ la ∧ la ≤ 90 ∧ -180 ≤ lo ∧ lo ≤ 180 then some (la, lo, c)
    else none
  | _, _, _ => none

/-- `map_df` (src/app.py 192-193):
`df[['Latitude','Longitude','Classification Of Accident']].dropna()`
followed by the inclusive `between` bounds filters — a row survives
exactly when all three cells are present, the latitude is in
`[-90, 90]` and the longitude is in `[-180, 180]`. -/
def map_df (rows : List GeoRow) : List (Rat × Rat × String) :=
  rows.filterMap geoKeep

def mapWarning : String :=
  "Latitude/Longitude data is present but empty or out of bounds."

/-- The map branch (src/app.py 195-253): with a non-empty `map_df` a
map section is emitted at the current counter (one marker per surviving
row) and the counter is incremented; otherwise nothing is emitted and
the warning is surfaced. -/
def addMapSection (st : DocState) (rows : List GeoRow) : DocState :=
  if map_df rows = [] then
    { st with warnings := st.warnings ++ [mapWarning] }
  else
    { count := st.count + 1
      sections := st.sections ++
        [⟨st.count, "Spatial Distribution of Accidents",
          Chart.geo (map_df rows),
          "Figure " ++ natStr st.count ++
            ": High-quality map showing accident types with legend.", ""⟩]
      warnings := st.warnings }

/-- One candidate of the assembler worklist: a titled chart request, or
the spatial-map request. -/
inductive WorkItem where
  | chart (title : String) (d : ChartData) (chartType : String)
  | geoMap (rows : List GeoRow)

/-- Process one worklist candidate. -/
def stepItem (oracle : Narrative) (st : DocState) : WorkItem → DocState
  | .chart t d ct => add_section oracle st t d ct
  | .geoMap rows => addMapSection st rows

/-- The assembler loop: fold the fixed worklist over the document
state. -/
def runWorklist (oracle : Narrative) (st : DocState) (wl : List WorkItem) :
    DocState :=
  wl.foldl (stepItem oracle) st

/-! ### The Column Classifier (src/Main_v04.py 22-28) -/

/-- One column of the Record Table: its name, whether its pandas dtype
is `object` (text-typed), and its cells (missing cells are `none`). -/
structure Column where
  name : String
  isObjectDtype : Bool
  values : List (Option String)
deriving DecidableEq

/-- `df[col].nunique()`: distinct non-missing values. -/
def nunique (c : Column) : Nat := (c.values.filterMap id).dedup.length

def excluded_cols : List String :=
  ["Latitude", "Longitude", "X-Coordinate", "Y-Coordinate"]

/-- The comprehension filter of `categorical_cols`:
`df[col].dtype == 'object' and col not in excluded_cols and
2 <= df[col].nunique() <= 15`. -/
def qualifies (c : Column) : Bool :=
  c.isObjectDtype && decide (c.name ∉ excluded_cols) &&
    decide (2 ≤ nunique c) && decide (nunique c ≤ 15)

/-- `categorical_cols` (src/Main_v04.py 23-28). -/
def categorical_cols (df : List Column) : List String :=
  (df.filter qualifies).map Column.name

/-! ## Lemmas about the time pipeline -/

theorem isDig_val {c : Char} (h : isDig c = true) : c.toNat - 48 ≤ 9 := by
  have := of_decide_eq_true h
  omega

theorem parseField_bound {hi v : Nat} {cs : List Char}
    (h : parseField hi cs = some v) : v ≤ max hi 9 := by
  unfold parseField at h
  split at h
  · rename_i hc
    obtain ⟨hlen, hdig⟩ := hc
    obtain ⟨c, rfl⟩ := List.length_eq_one.mp hlen
    have hd : isDig c = true := by simpa using hdig
    have hval := isDig_val hd
    have hv : digitsVal [c] = c.toNat - 48 := by simp [digitsVal]
    cases h
    refine le_trans ?_ (le_max_right hi 9)
    omega
  · split at h
    · rename_i hc
      cases h
      exact le_trans hc.2.2 (le_max_left hi 9)
    · exact absurd h (by simp)

theorem parseFieldI_bound {v : Nat} {cs : List Char}
    (h : parseFieldI cs = some v) : v ≤ 12 := by
  unfold parseFieldI at h
  split at h
  · rename_i hc
    obtain ⟨hlen, hdig, _⟩ := hc
    obtain ⟨c, rfl⟩ := List.length_eq_one.mp hlen
    have hd : isDig c = true := by simpa using hdig
    have hval := isDig_val hd
    have hv : digitsVal [c] = c.toNat - 48 := by simp [digitsVal]
    cases h
    omega
  · split at h
    · rename_i hc
      cases h
      exact hc.2.2.2
    · exact absurd h (by simp)

theorem parseHMS_bound {cs : List Char} {h m s : Nat}
    (hp : parseHMS cs = some (h, m, s)) : h ≤ 23 ∧ m ≤ 59 := by
  unfold parseHMS at hp
  split at hp
  · simp only [Option.bind_eq_some, Option.map_eq_some'] at hp
    obtain ⟨h1, hh, m1, hm, s1, _, heq⟩ := hp
    obtain ⟨rfl, rfl, _⟩ := Prod.mk.injEq .. ▸ heq
    exact ⟨by simpa using parseField_bound hh, by simpa using parseField_bound hm⟩
  · exact absurd hp (by simp)

theorem parseIMS_bound {cs : List Char} {h m s : Nat}
    (hp : parseIMS cs = some (h, m, s)) : h ≤ 23 ∧ m ≤ 59 := by
  unfold parseIMS at hp
  split at hp
  · simp only [Option.bind_eq_some, Option.map_eq_some'] at hp
    obtain ⟨h1, hh, m1, hm, s1, _, heq⟩ := hp
    obtain ⟨rfl, rfl, _⟩ := Prod.mk.injEq .. ▸ heq
    have := parseFieldI_bound hh
    constructor
    · split <;> omega
    · simpa using parseField_bound hm
  · exact absurd hp (by simp)

/-- Every successful `clean_time_string` result is a zero-padded
24-hour `HH:MM` rendering of an in-range hour and minute. -/
theorem clean_shape (t : String) :
    clean_time_string t = none ∨
      ∃ h m, h ≤ 23 ∧ m ≤ 59 ∧ clean_time_string t = some (fmtHM h m) := by
  unfold clean_time_string
  rcases hH : parseHMS (stripChars (cleanedChars t)) with _ | ⟨h, m, s⟩
  · rcases hI : parseIMS (stripChars (cleanedChars t)) with _ | ⟨h, m, s⟩
    · left; rfl
    · right
      have hb := parseIMS_bound hI
      exact ⟨h, m, hb.1, hb.2, rfl⟩
  · right
    have hb := parseHMS_bound hH
    exact ⟨h, m, hb.1, hb.2, rfl⟩

/-- `classify_period` is total with values among the five buckets. -/
theorem classify_total (t : Option String) :
    classify_period t ∈ ["Morning", "Afternoon", "Evening", "Night", "Unknown"] := by
  unfold classify_period
  split
  · simp
  · split
    · simp
    · split
      · simp
      · split_ifs <;> simp

/-- C1, counterexample: the spec's scenario fails on the code. The
input `"1:05pm"` has no seconds component, so after the `"pm"` suffix
is deleted neither `'%H:%M:%S'` nor `'%I:%M:%S'` parses it:
`clean_time_string` yields the sentinel `none` (not `"13:05"`) and the
bucket is `"Unknown"` (not `"Afternoon"`). -/
theorem C1_counterexample :
    clean_time_string "1:05pm" ≠ some "13:05" ∧
    clean_time_string "1:05pm" = none ∧
    classify_period (clean_time_string "1:05pm") ≠ "Afternoon" ∧
    classify_period (clean_time_string "1:05pm") = "Unknown" := by decide

/-- C1 (amended): normalization deletes `'am'`/`'pm'` suffixes without
any 12-hour adjustment and parses only `H:M:S` shapes (seconds
required, single- or double-digit fields); every successful parse
yields a zero-padded 24-hour `'HH:MM'` string, every unparseable input
(including `"1:05pm"`, which lacks seconds) maps to the sentinel `none`
without raising, and the resulting bucket is always one of the five
period values; in particular `"1:05pm"` normalizes to the sentinel with
bucket `"Unknown"`, and `"1:05:00pm"` normalizes to `"01:05"` (the pm
suffix is ignored) with bucket `"Night"`. -/
theorem C1_time_normalization :
    (clean_time_string "1:05pm" = none ∧
      classify_period (clean_time_string "1:05pm") = "Unknown") ∧
    (clean_time_string "1:05:00pm" = some "01:05" ∧
      classify_period (clean_time_string "1:05:00pm") = "Night") ∧
    (∀ t, clean_time_string t = none ∨
      ∃ h m, h ≤ 23 ∧ m ≤ 59 ∧ clean_time_string t = some (fmtHM h m)) ∧
    (∀ t : Option String,
      classify_period (cleanTimeOpt t) ∈
        ["Morning", "Afternoon", "Evening", "Night", "Unknown"]) :=
  ⟨by decide, by decide, clean_shape, fun t => classify_total _⟩

/-! ## The section counter invariant -/

/-- The assembler invariant: the counter is one past the number of
emitted sections, whose ordinals are `1, 2, …` contiguously. -/
def okState (st : DocState) : Prop :=
  st.count = st.sections.length + 1 ∧
  st.sections.map Sec.ordinal = List.range' 1 st.sections.length

theorem add_section_ok (oracle : Narrative) (st : DocState) (title : String)
    (d : ChartData) (ct : String) (h : okState st) :
    okState (add_section oracle st title d ct) := by
  unfold add_section
  split
  · exact h
  · obtain ⟨hc, hm⟩ := h
    refine ⟨by simp [hc], ?_⟩
    rw [List.map_append, List.length_append]
    simp only [List.map_cons, List.map_nil, List.length_cons, List.length_nil]
    rw [hm, hc, List.range'_1_concat]
    simp [Nat.add_comm]

theorem addMapSection_ok (st : DocState) (rows : List GeoRow)
    (h : okState st) : okState (addMapSection st rows) := by
  unfold addMapSection
  split
  · exact h
  · obtain ⟨hc, hm⟩ := h
    refine ⟨by simp [hc], ?_⟩
    rw [List.map_append, List.length_append]
    simp only [List.map_cons, List.map_nil, List.length_cons, List.length_nil]
    rw [hm, hc, List.range'_1_concat]
    simp [Nat.add_comm]

theorem runWorklist_ok (oracle : Narrative) (wl : List WorkItem) :
    ∀ st, okState st → okState (runWorklist oracle st wl) := by
  induction wl with
  | nil => exact fun st h => h
  | cons it wl ih =>
    intro st h
    refine ih (stepItem oracle st it) ?_
    cases it with
    | chart t d ct => exact add_section_ok oracle st t d ct h
    | geoMap rows => exact addMapSection_ok st rows h

/-- C2: starting from the front matter (`section_count = 1`), after any
worklist the emitted ordinals are exactly `1, 2, …, k` and the counter
is `k + 1`; a single-field table with fewer than 2 categories (and any
table with fewer than 2 rows, hence an empty cross-tab) leaves the
state unchanged, as does an empty map candidate (modulo its warning). -/
theorem C2_section_ordinals (oracle : Narrative) (wl : List WorkItem) :
    ((runWorklist oracle initState wl).sections.map Sec.ordinal =
      List.range' 1 (runWorklist oracle initState wl).sections.length) ∧
    ((runWorklist oracle initState wl).count =
      (runWorklist oracle initState wl).sections.length + 1) ∧
    (∀ st title d ct, chartLen d < 2 → add_section oracle st title d ct = st) ∧
    (∀ st rows, map_df rows = [] →
      (addMapSection st rows).sections = st.sections ∧
      (addMapSection st rows).count = st.count) := by
  have h := runWorklist_ok oracle wl initState ⟨rfl, rfl⟩
  refine ⟨h.2, h.1, ?_, ?_⟩
  · intro st title d ct hlt
    unfold add_section
    rw [if_pos hlt]
  · intro st rows he
    unfold addMapSection
    rw [if_pos he]
    exact ⟨rfl, rfl⟩

/-- A Narrative Service oracle that always fails. -/
def demoOracle : Narrative := fun _ => Except.error "boom"

theorem C2_section_ordinals_witness :
    add_section demoOracle initState "T" (ChartData.series [("a", 1)]) "bar" =
      initState ∧
    (addMapSection initState [⟨some 95, some 0, some "F"⟩]).sections =
      initState.sections ∧
    (addMapSection initState [⟨some 95, some 0, some "F"⟩]).count =
      initState.count :=
  ⟨(C2_section_ordinals demoOracle []).2.2.1 initState "T" _ "bar" (by decide),
   ((C2_section_ordinals demoOracle []).2.2.2 initState _ (by decide)).1,
   ((C2_section_ordinals demoOracle []).2.2.2 initState _ (by decide)).2⟩

/-! ## The chart branch -/

def Chart.isPie : Chart → Bool
  | .pie _ => true
  | _ => false

/-- C3: a pie chart is rendered iff the requested kind is `"pie"` and
the table has at most 6 categories; otherwise the chart is a bar chart,
stacked exactly when the data is a cross-tabulation (`DataFrame`), with
labels rotated. -/
theorem C3_chart_branch (ct : String) (d : ChartData) :
    ((renderChart ct d).isPie = true ↔ ct = "pie" ∧ chartLen d ≤ 6) ∧
    (∀ s r, renderChart ct d = Chart.bar s r → s = isCrossTab d ∧ r = true) ∧
    (¬(ct = "pie" ∧ chartLen d ≤ 6) →
      renderChart ct d = Chart.bar (isCrossTab d) true) := by
  unfold renderChart
  split_ifs with h
  · refine ⟨⟨fun _ => h, fun _ => rfl⟩, ?_, fun hn => absurd h hn⟩
    intro s r heq
    exact absurd heq (by simp)
  · refine ⟨⟨fun hp => ?_, fun hh => absurd hh h⟩, ?_, fun _ => rfl⟩
    · simp [Chart.isPie] at hp
    · intro s r heq
      injection heq with h1 h2
      exact ⟨h1.symm, h2.symm⟩

theorem C3_chart_branch_witness :
    renderChart "bar" (ChartData.frame ["Fatal"] [("Mon", [some 1]), ("Tue", [some 2])]) =
      Chart.bar true true :=
  (C3_chart_branch "bar" _).2.2 (by decide)

/-! ## Narrative failure handling -/

/-- C4: when the Narrative Service call fails with any error `e`, the
section is still emitted — appended with its rendered chart at the
current ordinal — its paragraph is the visible placeholder containing
the error detail, and the counter advances as usual; generation never
aborts (`add_section` is total). -/
theorem C4_narrative_failure (st : DocState) (title : String) (d : ChartData)
    (ct e : String) (hlen : 2 ≤ chartLen d) :
    (add_section (fun _ => Except.error e) st title d ct).sections =
      st.sections ++
        [⟨st.count, title, renderChart ct d,
          "Figure " ++ natStr st.count ++ ": " ++ title,
          "[GPT Error: " ++ e ++ "]"⟩] ∧
    (add_section (fun _ => Except.error e) st title d ct).count = st.count + 1 := by
  unfold add_section
  rw [if_neg (by omega)]
  exact ⟨rfl, rfl⟩

theorem C4_narrative_failure_witness :
    (add_section (fun _ => Except.error "rate limit") initState "Severity"
        (ChartData.series [("Fatal", 1), ("Injury", 2)]) "pie").sections =
      initState.sections ++
        [⟨initState.count, "Severity",
          renderChart "pie" (ChartData.series [("Fatal", 1), ("Injury", 2)]),
          "Figure " ++ natStr initState.count ++ ": " ++ "Severity",
          "[GPT Error: " ++ "rate limit" ++ "]"⟩] ∧
    (add_section (fun _ => Except.error "rate limit") initState "Severity"
        (ChartData.series [("Fatal", 1), ("Injury", 2)]) "pie").count =
      initState.count + 1 :=
  C4_narrative_failure initState "Severity" _ "pie" "rate limit" (by decide)

/-! ## The Column Classifier -/

/-- C5: `categorical_cols` returns exactly the names of the columns
that are text-typed (`object` dtype), not among the geometry fields,
and have between 2 and 15 distinct non-missing values inclusive; when
nothing qualifies it returns the empty list (it is total, so it never
errors). -/
theorem C5_categorical_cols (df : List Column) (nm : String) :
    (nm ∈ categorical_cols df ↔
      ∃ c ∈ df, c.name = nm ∧ c.isObjectDtype = true ∧
        c.name ∉ excluded_cols ∧ 2 ≤ nunique c ∧ nunique c ≤ 15) ∧
    ((∀ c ∈ df, qualifies c = false) → categorical_cols df = []) := by
  constructor
  · unfold categorical_cols
    simp only [List.mem_map, List.mem_filter]
    constructor
    · rintro ⟨c, ⟨hcdf, hq⟩, rfl⟩
      simp only [qualifies, Bool.and_eq_true, decide_eq_true_eq] at hq
      exact ⟨c, hcdf, rfl, hq.1.1.1, hq.1.1.2, hq.1.2, hq.2⟩
    · rintro ⟨c, hcdf, rfl, hobj, hnot, h2, h15⟩
      exact ⟨c, ⟨hcdf, by simp [qualifies, hobj, hnot, h2, h15]⟩, rfl⟩
  · intro hall
    unfold categorical_cols
    have : df.filter qualifies = [] := by
      rw [List.filter_eq_nil_iff]
      intro c hc
      simp [hall c hc]
    rw [this, List.map_nil]

theorem C5_categorical_cols_witness :
    ("Light" ∈ categorical_cols
        [⟨"Light", true, [some "Dark", some "Daylight", none]⟩,
         ⟨"Latitude", false, [some "45", some "46", some "47"]⟩] ↔
      ∃ c ∈ [(⟨"Light", true, [some "Dark", some "Daylight", none]⟩ : Column),
             ⟨"Latitude", false, [some "45", some "46", some "47"]⟩],
        c.name = "Light" ∧ c.isObjectDtype = true ∧
          c.name ∉ excluded_cols ∧ 2 ≤ nunique c ∧ nunique c ≤ 15) ∧
    categorical_cols [(⟨"Const", true, [some "x", some "x"]⟩ : Column)] = [] :=
  ⟨(C5_categorical_cols _ "Light").1,
   (C5_categorical_cols [⟨"Const", true, [some "x", some "x"]⟩] "z").2
     (by decide)⟩

/-! ## Density of the reindexed cross-tabulations -/

/-- C6, counterexample: with a single `(Monday, Injury)` row, the
combination `(Tuesday, Injury)` occurs in no row and `"Tuesday"` is in
the canonical weekday ordering, yet its cell in the reindexed table is
`NaN` (`none`), not 0 — `reindex` fills labels absent from the data
with `NaN`, not with the `unstack` fill value. -/
theorem C6_counterexample :
    "Tuesday" ∈ weekday_order ∧
    "Injury" ∈ obsCols [(some "Monday", some "Injury")] ∧
    ("Tuesday", "Injury") ∉ validPairs [(some "Monday", some "Injury")] ∧
    crosstabCell [(some "Monday", some "Injury")] "Tuesday" "Injury" ≠ some 0 ∧
    crosstabCell [(some "Monday", some "Injury")] "Tuesday" "Injury" = none ∧
    (reindexedTable [(some "Monday", some "Injury")] weekday_order).map Prod.fst =
      weekday_order := by decide

/-- C6 (amended): the reindexed cross-tabulation is structurally dense
— one row per canonical group value in order, one cell per observed
classification value — and a combination occurring in no row fills
with 0 whenever its group value occurs in at least one valid row; a
canonical group value occurring in no row yields `NaN` (`none`) cells
instead of 0. -/
theorem C6_dense_crosstab (pairs : List (Option String × Option String))
    (order : List String) (g c : String) :
    ((reindexedTable pairs order).map Prod.fst = order) ∧
    (∀ row ∈ reindexedTable pairs order, row.2.length = (obsCols pairs).length) ∧
    (g ∈ obsGroups pairs → (validPairs pairs).count (g, c) = 0 →
      crosstabCell pairs g c = some 0) ∧
    (g ∉ obsGroups pairs → crosstabCell pairs g c = none) := by
  refine ⟨?_, ?_, ?_, ?_⟩
  · simp [reindexedTable, Function.comp_def]
  · intro row hrow
    simp only [reindexedTable, List.mem_map] at hrow
    obtain ⟨g1, hg1, rfl⟩ := hrow
    simp
  · intro hg hc
    simp [crosstabCell, hg, hc]
  · intro hg
    simp [crosstabCell, hg]

theorem C6_dense_crosstab_witness :
    crosstabCell [(some "Monday", some "Injury")] "Monday" "Fatal" = some 0 ∧
    crosstabCell [(some "Monday", some "Injury")] "Tuesday" "Fatal" = none :=
  ⟨(C6_dense_crosstab _ weekday_order "Monday" "Fatal").2.2.1 (by decide) (by decide),
   (C6_dense_crosstab _ weekday_order "Tuesday" "Fatal").2.2.2 (by decide)⟩

/-! ## Counting lemmas for the Aggregator sums -/

/-- Summing, over a duplicate-free list that covers `m`, the number of
occurrences in `m` of each element gives the length of `m`. -/
theorem sum_count_covers {α : Type} [DecidableEq α] :
    ∀ C : List α, C.Nodup → ∀ m : List α, (∀ x ∈ m, x ∈ C) →
      (C.map fun x => m.count x).sum = m.length := by
  intro C
  induction C with
  | nil =>
    intro _ m hm
    cases m with
    | nil => simp
    | cons a t => exact absurd (hm a (by simp)) (by simp)
  | cons c C ih =>
    intro hnd m hm
    rw [List.nodup_cons] at hnd
    obtain ⟨hcC, hndC⟩ := hnd
    have hmapeq : C.map (fun x => m.count x) =
        C.map fun x => (m.filter fun y => decide (y ≠ c)).count x := by
      refine List.map_congr_left fun x hx => ?_
      have hxc : x ≠ c := fun h => hcC (h ▸ hx)
      exact (List.count_filter (by simpa using hxc)).symm
    have hsub1 : ∀ x ∈ m.filter fun y => decide (y ≠ c), x ∈ C := by
      intro x hx
      rw [List.mem_filter] at hx
      obtain ⟨hxm, hxc⟩ := hx
      rcases List.mem_cons.mp (hm x hxm) with h | h
      · exact absurd h (by simpa using hxc)
      · exact h
    have hrec := ih hndC _ hsub1
    simp only [List.map_cons, List.sum_cons]
    rw [hmapeq, hrec, List.count_eq_countP, ← List.countP_eq_length_filter]
    rw [List.length_eq_countP_add_countP (p := fun y => y == c) (l := m)]
    congr 1
    refine List.countP_congr fun x hx => ?_
    simp

/-- Counting a pair `(g, c)` in a list whose first components are all
`g` is counting `c` among the second components. -/
theorem count_pair_snd {α β : Type} [DecidableEq α] [DecidableEq β] (g : α) (c : β) :
    ∀ l : List (α × β), (∀ p ∈ l, p.1 = g) →
      l.count (g, c) = (l.map Prod.snd).count c := by
  intro l
  induction l with
  | nil => simp
  | cons p t ih =>
    intro hall
    have hp : p.1 = g := hall p (by simp)
    have ht : ∀ q ∈ t, q.1 = g := fun q hq => hall q (by simp [hq])
    rw [List.map_cons, List.count_cons, List.count_cons, ih ht]
    congr 1
    cases p with
    | mk a b =>
      simp only at hp
      subst hp
      by_cases hbc : b = c
      · subst hbc; simp
      · simp [hbc]

/-- One row of the unstacked grid sums to the number of valid rows with
that group value. -/
theorem inner_sum (pairs : List (Option String × Option String)) (g : String) :
    ((obsCols pairs).map fun c => (validPairs pairs).count (g, c)).sum =
      ((validPairs pairs).map Prod.fst).count g := by
  have hall : ∀ p ∈ (validPairs pairs).filter fun p => decide (p.1 = g), p.1 = g := by
    intro p hp
    simpa using List.of_mem_filter hp
  have hmem : ∀ x ∈ ((validPairs pairs).filter fun p => decide (p.1 = g)).map Prod.snd,
      x ∈ obsCols pairs := by
    intro x hx
    rw [List.mem_map] at hx
    obtain ⟨p, hp, rfl⟩ := hx
    have hpV : p ∈ validPairs pairs := List.mem_of_mem_filter hp
    unfold obsCols
    rw [List.mem_dedup]
    exact List.mem_map_of_mem Prod.snd hpV
  have hnd : (obsCols pairs).Nodup := by
    unfold obsCols
    exact List.nodup_dedup _
  calc ((obsCols pairs).map fun c => (validPairs pairs).count (g, c)).sum
      = ((obsCols pairs).map fun c =>
          (((validPairs pairs).filter fun p => decide (p.1 = g)).map Prod.snd).count c).sum := by
        refine congrArg List.sum (List.map_congr_left fun c hc => ?_)
        rw [(List.count_filter (p := fun p => decide (p.1 = g)) (by simp)).symm,
          count_pair_snd g c _ hall]
    _ = (((validPairs pairs).filter fun p => decide (p.1 = g)).map Prod.snd).length :=
        sum_count_covers _ hnd _ hmem
    _ = ((validPairs pairs).filter fun p => decide (p.1 = g)).length := by
        rw [List.length_map]
    _ = (validPairs pairs).countP fun p => decide (p.1 = g) := by
        rw [List.countP_eq_length_filter]
    _ = ((validPairs pairs).map Prod.fst).count g := by
        rw [List.count_eq_countP, List.countP_map]
        refine List.countP_congr fun p hp => ?_
        simp [Function.comp]

/-- The cells of the 0-filled unstacked grid sum to the number of rows
with both keys present. -/
theorem crosstabSum_eq (pairs : List (Option String × Option String)) :
    crosstabSum pairs = (validPairs pairs).length := by
  unfold crosstabSum crosstabRows
  rw [List.map_map]
  have h1 : ((obsGroups pairs).map
      ((fun r : String × List Nat => r.2.sum) ∘ fun g =>
        (g, (obsCols pairs).map fun c => (validPairs pairs).count (g, c)))) =
      (obsGroups pairs).map fun g => ((validPairs pairs).map Prod.fst).count g := by
    refine List.map_congr_left fun g hg => ?_
    simpa using inner_sum pairs g
  rw [h1]
  unfold obsGroups
  rw [List.sum_map_count_dedup_eq_length, List.length_map]

/-- C7: the counts of a single-field `value_counts` table sum to the
number of rows with a non-missing value in the counted field, and the
cells of a cross-tabulation sum to the number of rows with both keys
present (counts live in `Nat`, hence are non-negative). -/
theorem C7_frequency_sums (vals : List (Option String))
    (pairs : List (Option String × Option String)) :
    ((value_counts vals).map Prod.snd).sum =
      (vals.filter fun v => v.isSome).length ∧
    crosstabSum pairs =
      (pairs.filter fun p => p.1.isSome && p.2.isSome).length := by
  constructor
  · unfold value_counts
    rw [List.map_map]
    have h1 : ((Prod.snd ∘ fun x => (x, (vals.filterMap id).count x)) =
        fun x => (vals.filterMap id).count x) := rfl
    rw [h1, List.sum_map_count_dedup_eq_length,
      List.length_filterMap_eq_countP, List.countP_eq_length_filter]
    rfl
  · rw [crosstabSum_eq]
    unfold validPairs
    rw [List.length_filterMap_eq_countP, List.countP_eq_length_filter]
    congr 1
    refine List.filter_congr fun p hp => ?_
    cases p with
    | mk a b => cases a <;> cases b <;> simp

/-! ## Narrative Service prompt bounds -/

/-- An 11-category frequency table. -/
def demo11 : List (String × Nat) :=
  [("c01", 1), ("c02", 1), ("c03", 1), ("c04", 1), ("c05", 1), ("c06", 1),
   ("c07", 1), ("c08", 1), ("c09", 1), ("c10", 1), ("c11", 1)]

/-- C8, counterexample: src/Main_v04.py builds its prompt from
`value_counts.to_string()` with no `head(10)`, so on an 11-category
table the request differs from the one built from only the first 10
rows — the prompt contains more than the first 10 rows of the table. -/
theorem C8_counterexample :
    demo11.length = 11 ∧
    promptMain "Light Distribution" demo11 ≠
      promptMain "Light Distribution" (demo11.take 10) := by decide

/-- C8 (amended): the prompt built by `add_section` in src/app.py is
bounded to the first 10 rows of the table (it is invariant under any
change past row 10), while the prompt of src/Main_v04.py renders the
whole table — only the classifier's 15-distinct-value cap bounds it. -/
theorem C8_prompt_rows (title : String) (d : ChartData) :
    (promptApp title d = promptApp title (chartHead 10 d)) ∧
    (∀ d2, chartHead 10 d = chartHead 10 d2 →
      promptApp title d = promptApp title d2) ∧
    promptMain "Light Distribution" demo11 ≠
      promptMain "Light Distribution" (demo11.take 10) := by
  have hidem : chartHead 10 (chartHead 10 d) = chartHead 10 d := by
    cases d <;> simp [chartHead, List.take_take]
  refine ⟨?_, ?_, by decide⟩
  · unfold promptApp
    rw [hidem]
  · intro d2 h
    unfold promptApp
    rw [h]

theorem C8_prompt_rows_witness :
    promptApp "T" (ChartData.series (demo11 ++ [("extra", 9)])) =
      promptApp "T" (ChartData.series (demo11 ++ [("other", 7)])) :=
  (C8_prompt_rows "T" _).2.1 _ (by decide)

/-! ## The Spatial Map Builder input -/

/-- C9, counterexample: a row with both coordinates present and within
bounds but a missing classification is dropped by `dropna()`, so the
map input is not exactly "the rows with both coordinates present and in
bounds" as the claim states. -/
theorem C9_counterexample :
    map_df [⟨some 10, some 10, none⟩] = [] ∧
    -90 ≤ (10 : Rat) ∧ (10 : Rat) ≤ 90 ∧ -180 ≤ (10 : Rat) ∧ (10 : Rat) ≤ 180 := by
  decide

/-- C9 (amended): `map_df` contains exactly the rows with latitude,
longitude and classification all present, latitude in `[-90, 90]` and
longitude in `[-180, 180]`; a row with latitude 95 is excluded, and
when no row passes, the map branch emits no section and surfaces the
warning instead. -/
theorem C9_map_filter (rows : List GeoRow) (la lo : Rat) (c : String) :
    ((la, lo, c) ∈ map_df rows ↔
      (⟨some la, some lo, some c⟩ : GeoRow) ∈ rows ∧
        -90 ≤ la ∧ la ≤ 90 ∧ -180 ≤ lo ∧ lo ≤ 180) ∧
    map_df [⟨some 95, some 10, some "Fatal"⟩] = [] ∧
    (∀ st, map_df rows = [] →
      (addMapSection st rows).sections = st.sections ∧
      (addMapSection st rows).warnings = st.warnings ++ [mapWarning]) := by
  refine ⟨?_, by decide, ?_⟩
  · unfold map_df
    rw [List.mem_filterMap]
    constructor
    · rintro ⟨r, hr, hf⟩
      rcases r with ⟨_ | la1, _ | lo1, _ | c1⟩ <;> simp [geoKeep] at hf
      obtain ⟨hb, rfl, rfl, rfl⟩ := hf
      exact ⟨hr, hb⟩
    · rintro ⟨hr, hb⟩
      refine ⟨⟨some la, some lo, some c⟩, hr, ?_⟩
      simp only [geoKeep]
      rw [if_pos hb]
  · intro st he
    unfold addMapSection
    rw [if_pos he]
    exact ⟨rfl, rfl⟩

theorem C9_map_filter_witness :
    (addMapSection initState [⟨some 95, some 10, some "Fatal"⟩]).sections =
      initState.sections ∧
    (addMapSection initState [⟨some 95, some 10, some "Fatal"⟩]).warnings =
      initState.warnings ++ [mapWarning] :=
  (C9_map_filter [⟨some 95, some 10, some "Fatal"⟩] 0 0 "x").2.2 initState
    (by decide)

/-! ## The "Accident Type by Time of Day" section -/

theorem splitNoSep (sep : Char) (ys : List Char) :
    ∀ xs : List Char, (∀ c ∈ xs, c ≠ sep) →
      splitOnChar sep (xs ++ sep :: ys) = xs :: splitOnChar sep ys := by
  intro xs
  induction xs with
  | nil =>
    intro _
    simp [splitOnChar]
  | cons c t ih =>
    intro hall
    have hc : c ≠ sep := hall c (by simp)
    have ht : ∀ x ∈ t, x ≠ sep := fun x hx => hall x (by simp [hx])
    show splitOnChar sep (c :: (t ++ sep :: ys)) = (c :: t) :: splitOnChar sep ys
    rw [splitOnChar, if_neg hc, ih ht]

theorem fmt2_no_colon {h : Nat} (hh : h ≤ 23) : ∀ c ∈ fmt2 h, c ≠ ':' := by
  interval_cases h <;> decide

theorem pyInt_fmt2 {h : Nat} (hh : h ≤ 23) : pyInt (fmt2 h) = some (h : Int) := by
  interval_cases h <;> decide

/-- Any normalized `HH:MM` string classifies into one of the four
period buckets (never `"Unknown"`). -/
theorem classify_fmtHM {h : Nat} (hh : h ≤ 23) (m : Nat) :
    classify_period (some (fmtHM h m)) ∈ period_order := by
  have hsplit : splitOnChar ':' (fmtHM h m).data = fmt2 h :: splitOnChar ':' (fmt2 m) := by
    show splitOnChar ':' (fmt2 h ++ ':' :: fmt2 m) = _
    exact splitNoSep ':' (fmt2 m) (fmt2 h) (fmt2_no_colon hh)
  simp only [classify_period, hsplit, pyInt_fmt2 hh]
  split_ifs <;> decide

/-- A raw time cell lands in one of the four display buckets exactly
when `clean_time_string` succeeds on it. -/
theorem timePeriod_parseable (t : Option String) :
    timePeriodOf t ∈ period_order ↔ (cleanTimeOpt t).isSome := by
  unfold timePeriodOf
  cases hct : cleanTimeOpt t with
  | none => simp [classify_period, period_order]
  | some r =>
    simp only [Option.isSome_some, iff_true]
    cases t with
    | none => exact absurd hct (by simp [cleanTimeOpt])
    | some s =>
      have hclean : clean_time_string s = some r := by
        simpa [cleanTimeOpt] using hct
      rcases clean_shape s with hnone | ⟨h, m, hh, _, heq⟩
      · rw [hnone] at hclean
        exact absurd hclean (by simp)
      · rw [heq, Option.some.injEq] at hclean
        subst hclean
        exact classify_fmtHM hh m

/-- The `NaN`-skipping sum of a reindexed table equals the number of
valid rows, provided the canonical order is duplicate-free and covers
every observed group value. -/
theorem tableOptSum_reindexed (pairs : List (Option String × Option String))
    (order : List String) (hnd : order.Nodup)
    (hcov : ∀ p ∈ validPairs pairs, p.1 ∈ order) :
    tableOptSum (reindexedTable pairs order) = (validPairs pairs).length := by
  unfold tableOptSum reindexedTable
  rw [List.map_map]
  have hrow : ∀ g ∈ order,
      ((fun r : String × List (Option Nat) => (r.2.filterMap id).sum) ∘
        fun g => (g, (obsCols pairs).map fun c => crosstabCell pairs g c)) g =
      ((validPairs pairs).map Prod.fst).count g := by
    intro g _
    simp only [Function.comp]
    by_cases hg : g ∈ obsGroups pairs
    · have hcells : ((obsCols pairs).map fun c => crosstabCell pairs g c) =
          (obsCols pairs).map fun c => some ((validPairs pairs).count (g, c)) := by
        refine List.map_congr_left fun c _ => ?_
        simp [crosstabCell, hg]
      rw [hcells, List.filterMap_map,
        show (id ∘ fun c => some ((validPairs pairs).count (g, c))) =
          (some ∘ fun c => (validPairs pairs).count (g, c)) from rfl,
        List.filterMap_eq_map]
      exact inner_sum pairs g
    · have hcells : ((obsCols pairs).map fun c => crosstabCell pairs g c) =
          (obsCols pairs).map fun _ => (none : Option Nat) := by
        refine List.map_congr_left fun c _ => ?_
        simp [crosstabCell, hg]
      have hnil : ∀ L : List String,
          (L.map fun _ => (none : Option Nat)).filterMap id = [] := by
        intro L
        induction L with
        | nil => rfl
        | cons x t ih => simp [ih]
      have hnotmem : g ∉ (validPairs pairs).map Prod.fst := by
        intro hgm
        refine hg ?_
        unfold obsGroups
        rw [List.mem_dedup]
        exact hgm
      rw [hcells, hnil]
      simp [List.count_eq_zero.mpr hnotmem]
  have hcover : ∀ x ∈ (validPairs pairs).map Prod.fst, x ∈ order := by
    intro x hx
    rw [List.mem_map] at hx
    obtain ⟨p, hp, rfl⟩ := hx
    exact hcov p hp
  rw [List.map_congr_left hrow, sum_count_covers order hnd _ hcover,
    List.length_map]

/-- The valid pairs of the filtered time rows are counted by the rows
with a present classification. -/
theorem validPairs_snd_length :
    ∀ l : List (Option String × Option String),
      (validPairs (l.map fun r => (some (timePeriodOf r.1), r.2))).length =
        (l.filter fun r => r.2.isSome).length := by
  intro l
  induction l with
  | nil => rfl
  | cons r t ih =>
    cases hr2 : r.2 with
    | none =>
      unfold validPairs at ih ⊢
      rw [List.map_cons, List.filterMap_cons_none (by rw [hr2]), ih,
        List.filter_cons_of_neg (by simp [hr2])]
    | some b =>
      unfold validPairs at ih ⊢
      rw [List.map_cons, List.filterMap_cons_some (by rw [hr2]),
        List.length_cons, ih, List.filter_cons_of_pos (by simp [hr2]),
        List.length_cons]

/-- C10, counterexample: a single row with the parseable time
`"10:00:00"` but a missing classification is dropped by the `groupby`,
so the emitted table's counts sum to 0, not to the number of rows with
a parseable time (1). -/
theorem C10_counterexample :
    parseableCount [(some "10:00:00", (none : Option String))] = 1 ∧
    tableOptSum (time_grouped [(some "10:00:00", (none : Option String))]) = 0 := by
  decide

/-- C10 (amended): rows whose time bucket is not among the four display
periods (in particular `"Unknown"`) are removed before the
cross-tabulation; the emitted table's row labels are exactly Morning,
Afternoon, Evening, Night; and its counts sum to the number of rows
with a parseable time *and* a non-missing classification (rows with a
parseable time but missing classification are dropped by the
`groupby`). -/
theorem C10_time_of_day (rows : List (Option String × Option String)) :
    ((time_grouped rows).map Prod.fst = period_order) ∧
    (∀ r ∈ timeFiltered rows, ∃ p, r.1 = some p ∧ p ∈ period_order) ∧
    tableOptSum (time_grouped rows) =
      (rows.filter fun r => (cleanTimeOpt r.1).isSome && r.2.isSome).length := by
  refine ⟨?_, ?_, ?_⟩
  · simp [time_grouped, reindexedTable, Function.comp_def]
  · intro r hr
    unfold timeFiltered at hr
    rw [List.mem_map] at hr
    obtain ⟨r0, hr0, rfl⟩ := hr
    refine ⟨timePeriodOf r0.1, rfl, ?_⟩
    have hmem := (List.mem_filter.mp hr0).2
    simpa [List.contains] using hmem
  · unfold time_grouped
    have hcov : ∀ p ∈ validPairs (timeFiltered rows), p.1 ∈ period_order := by
      intro p hp
      unfold validPairs at hp
      rw [List.mem_filterMap] at hp
      obtain ⟨q, hq, hgq⟩ := hp
      unfold timeFiltered at hq
      rw [List.mem_map] at hq
      obtain ⟨r0, hr0, rfl⟩ := hq
      cases hq2 : r0.2 with
      | none =>
        rw [hq2] at hgq
        exact absurd hgq (by simp)
      | some b =>
        rw [hq2] at hgq
        rw [Option.some.injEq] at hgq
        have hmem := (List.mem_filter.mp hr0).2
        have : p.1 = timePeriodOf r0.1 := by rw [← hgq]
        rw [this]
        simpa [List.contains] using hmem
    rw [tableOptSum_reindexed _ _ (by decide) hcov]
    rw [show timeFiltered rows =
      (rows.filter fun r => period_order.contains (timePeriodOf r.1)).map
        (fun r => (some (timePeriodOf r.1), r.2)) from rfl]
    rw [validPairs_snd_length, List.filter_filter]
    refine congrArg List.length (List.filter_congr fun r _ => ?_)
    have h1 : period_order.contains (timePeriodOf r.1) = (cleanTimeOpt r.1).isSome := by
      by_cases hmem : timePeriodOf r.1 ∈ period_order
      · have hs := (timePeriod_parseable r.1).mp hmem
        simp [List.contains, hmem, hs]
      · have hs : (cleanTimeOpt r.1).isSome = false := by
          cases h2 : (cleanTimeOpt r.1).isSome with
          | false => rfl
          | true => exact absurd ((timePeriod_parseable r.1).mpr h2) hmem
        simp [List.contains, hmem, hs]
    rw [h1, Bool.and_comm]

theorem C10_time_of_day_witness :
    (∀ r ∈ timeFiltered [(some "13:45:00", some "Injury"),
        (some "bad", some "Fatal")],
      ∃ p, r.1 = some p ∧ p ∈ period_order) ∧
    tableOptSum (time_grouped [(some "13:45:00", some "Injury"),
        (some "bad", some "Fatal")]) = 1 := by
  refine ⟨(C10_time_of_day _).2.1, ?_⟩
  rw [(C10_time_of_day [(some "13:45:00", some "Injury"),
    (some "bad", some "Fatal")]).2.2]
  decide

end CollisionReport
